import Mathlib

/-!
Shallow embedding of the `ahandd` execution daemon core (repository
`team9ai/aHand`), covering the components referenced by the frozen claims:
the policy evaluator (`src/crates/ahandd/src/policy.rs`), the session
manager (`session.rs`), the job registry (`registry.rs`), the approval
manager (`approval.rs`), the outbox (`outbox.rs`), the executor's terminal
result computation (`executor.rs`) and the two consent pipelines
(`client.rs` for the controller channel, `ipc.rs` for the operator
channel).

Modelling conventions:
- Rust `Instant` values and millisecond wall-clock values are `Nat`
  (seconds for `Instant` arithmetic, milliseconds where the source uses
  `now_ms()`); each operation that calls `Instant::now()` / `now_ms()`
  takes the current time as an explicit argument.
- `HashMap`/`HashSet` state is an association list / list of keys; the
  completed-job `VecDeque` and the outbox buffer are `List`s with the
  front of the deque at the head.
- Async mutation is explicit state passing: an operation that mutates
  `&self` returns the updated state alongside its result.
-/

namespace AHand

/-- Protocol message `JobRequest` (fields as used throughout `ahandd`):
job id, tool, argument vector, optional cwd (empty = unset), environment
overrides, timeout in milliseconds (0 = none). -/
structure JobRequest where
  job_id : String
  tool : String
  args : List String
  cwd : String
  env : List (String × String)
  timeout_ms : Nat
  deriving Repr, DecidableEq

/-- Protocol message `RefusalContext` (constructed in `session.rs`,
`get_refusals`): tool, reason, absolute refusal timestamp in ms. -/
structure RefusalContext where
  tool : String
  reason : String
  refused_at_ms : Nat
  deriving Repr, DecidableEq

/-- Protocol message `ApprovalRequest` (constructed in `approval.rs`,
`submit`). -/
structure ApprovalRequest where
  job_id : String
  tool : String
  args : List String
  cwd : String
  reason : String
  detected_domains : List String
  expires_ms : Nat
  caller_uid : String
  previous_refusals : List RefusalContext
  deriving Repr, DecidableEq

/-- Protocol message `ApprovalResponse` (fields as used in `client.rs` and
`ipc.rs`): job id, approved flag, optional denial reason, remember flag. -/
structure ApprovalResponse where
  job_id : String
  approved : Bool
  reason : String
  remember : Bool
  deriving Repr, DecidableEq

/-- Rust `format!("{:?}", s)` on a `String` puts the text in double
quotes (Debug escaping of special characters inside `s` is not needed for
any input exercised here). -/
def debugQuote (s : String) : String :=
  "\"" ++ s ++ "\""

/-- `PolicyConfig` from `config.rs` as consumed by `policy.rs`:
allowed-tools (empty = not enforced), denied-tools, denied path prefixes,
allowed-domains, approval timeout in seconds. -/
structure PolicyConfig where
  allowed_tools : List String
  denied_tools : List String
  denied_paths : List String
  allowed_domains : List String
  approval_timeout_secs : Nat
  deriving Repr, DecidableEq

/-- `PolicyDecision` from `policy.rs`. -/
inductive PolicyDecision where
  | allow : PolicyDecision
  | deny (reason : String) : PolicyDecision
  | needsApproval (reason : String) (detected_domains : List String) : PolicyDecision
  deriving Repr, DecidableEq

/-- Protocol message `PolicyUpdate` as consumed by
`PolicyChecker::apply_update`: add/remove lists for each of the four
policy lists, plus an approval-timeout override (0 = keep). -/
structure PolicyUpdate where
  add_allowed_tools : List String
  remove_allowed_tools : List String
  add_denied_tools : List String
  remove_denied_tools : List String
  add_denied_paths : List String
  remove_denied_paths : List String
  add_allowed_domains : List String
  remove_allowed_domains : List String
  approval_timeout_secs : Nat
  deriving Repr, DecidableEq

/-- `PolicyChecker` state from `policy.rs`: the mutable config and the
per-caller session-approval sets (`caller_uid -> set of approved keys`,
modelled as an association list of key lists). -/
structure PolicyChecker where
  config : PolicyConfig
  session_approvals : List (String × List String)
  deriving Repr, DecidableEq

/-- `NETWORK_TOOLS` from `policy.rs`: tools known to make network
connections. -/
def NETWORK_TOOLS : List String :=
  ["curl", "wget", "git", "ssh", "scp", "rsync", "sftp",
   "nc", "ncat", "nmap", "ping", "dig", "nslookup",
   "http", "https", "fetch"]

/-- Split of a character list at every occurrence of `c` (the characters
of Rust `str::split(c)`; a structural-recursion stand-in for the
position-based core string functions, which do not reduce in the
kernel). -/
def splitOnChar (c : Char) (l : List Char) : List (List Char) :=
  match l with
  | [] => [[]]
  | x :: xs =>
    let rest := splitOnChar c xs
    if x = c then [] :: rest
    else
      match rest with
      | [] => [[x]]
      | r :: rs => (x :: r) :: rs

/-- Join of character-list pieces with a separator character (inverse of
`splitOnChar`, used where the source keeps text after the first match). -/
def joinWithChar (c : Char) (ls : List (List Char)) : List Char :=
  match ls with
  | [] => []
  | [x] => x
  | x :: xs => x ++ c :: joinWithChar c xs

/-- Basename of a tool path: `tool.rsplit('/').next().unwrap_or(tool)` —
the final `/`-separated component (the whole string when there is no
slash). -/
def toolBasename (tool : String) : String :=
  ⟨(splitOnChar '/' tool.data).getLastD tool.data⟩

/-- Validity of a URL scheme per RFC 3986 / the `url` crate: one ASCII
letter followed by letters, digits, `+`, `-` or `.`. -/
def valid_scheme (s : List Char) : Bool :=
  match s with
  | [] => false
  | c :: rest =>
    c.isAlpha && rest.all (fun ch => ch.isAlphanum || ch == '+' || ch == '-' || ch == '.')

/-- `try_extract_url_host` from `policy.rs`: parse the argument with
`Url::parse` and return the host. The `url` crate is modelled for the
hierarchical form `scheme://[userinfo@]host[:port][/path...]` with the
host lowercased, which covers every argument shape the daemon's
heuristics feed it: the scheme runs to the first `:` (no `:` at all is
`RelativeUrlWithoutBase`, giving `none`), the authority must open with
`//` and runs to the first `/`, `?` or `#` (URLs without an authority
have `host_str() == None`), userinfo before the last `@` and a `:`-suffix
port are stripped, and an empty host is a parse error. -/
def try_extract_url_host (s : String) : Option String :=
  let chars := s.data
  let scheme := chars.takeWhile (fun c => c != ':')
  if scheme.length = chars.length then none
  else if !valid_scheme scheme then none
  else
    match chars.drop (scheme.length + 1) with
    | '/' :: '/' :: rest =>
      let authority := rest.takeWhile (fun c => c != '/' && c != '?' && c != '#')
      let hostport := (splitOnChar '@' authority).getLastD authority
      let host := hostport.takeWhile (fun c => c != ':')
      if host.isEmpty then none else some ⟨host.map Char.toLower⟩
    | _ => none

/-- `try_extract_ssh_host` from `policy.rs`: for `user@host:path` or
`user@host`, take the text after the first `@` up to the first `:`;
accept it when non-empty and containing a dot. -/
def try_extract_ssh_host (s : String) : Option String :=
  match splitOnChar '@' s.data with
  | _ :: rest :: more =>
    let after_at := joinWithChar '@' (rest :: more)
    let host := after_at.takeWhile (fun c => c != ':')
    if !host.isEmpty && host.contains '.' then some ⟨host⟩ else none
  | _ => none

/-- One step of the argument loop of `extract_domains`: skip flags, try
URL host, then ssh host, then (for the listed tools) a bare dotted
hostname; push each host at most once. -/
def extractDomainStep (base : String) (domains : List String) (arg : String) : List String :=
  match arg.data with
  | '-' :: _ => domains
  | argChars =>
    match try_extract_url_host arg with
    | some host => if domains.contains host then domains else domains ++ [host]
    | none =>
      match try_extract_ssh_host arg with
      | some host => if domains.contains host then domains else domains ++ [host]
      | none =>
        if (base == "ssh" || base == "ping" || base == "dig" || base == "nslookup"
              || base == "nc" || base == "ncat")
            && !argChars.contains '/' && argChars.contains '.' then
          let host : String := ⟨argChars.takeWhile (fun c => c != ':')⟩
          if domains.contains host then domains else domains ++ [host]
        else domains

/-- `extract_domains` from `policy.rs`: only inspect arguments when the
tool's basename is a known network tool; fold the per-argument heuristics
over the argument vector. -/
def extract_domains (tool : String) (args : List String) : List String :=
  let base := toolBasename tool
  if !NETWORK_TOOLS.contains base then []
  else args.foldl (extractDomainStep base) []

/-- `PolicyChecker::check` from `policy.rs`: denied tools, then denied
cwd prefixes, then domain extraction, then session memory, then the tool
allowlist, then the domain allowlist; otherwise Allow. -/
def PolicyChecker.check (pc : PolicyChecker) (req : JobRequest) (caller_uid : String) :
    PolicyDecision :=
  let cfg := pc.config
  if cfg.denied_tools.contains req.tool then
    .deny ("tool " ++ debugQuote req.tool ++ " is in the deny list")
  else if !req.cwd.data.isEmpty
      && cfg.denied_paths.any (fun d => d.data.isPrefixOf req.cwd.data) then
    .deny ("working directory " ++ debugQuote req.cwd ++ " is denied by policy")
  else
    let detected_domains := extract_domains req.tool req.args
    let approvals := ((pc.session_approvals.find? (fun p => p.1 == caller_uid)).map
      (fun p => p.2)).getD []
    let tool_remembered := approvals.contains ("tool:" ++ req.tool)
    let remembered_domains := detected_domains.filter
      (fun d => approvals.contains ("domain:" ++ d))
    let tool_allowed := cfg.allowed_tools.isEmpty
      || cfg.allowed_tools.contains req.tool || tool_remembered
    if !tool_allowed then
      .needsApproval ("tool " ++ debugQuote req.tool ++ " is not in the allow list")
        detected_domains
    else
      let unapproved := detected_domains.filter
        (fun d => !cfg.allowed_domains.contains d && !remembered_domains.contains d)
      if !detected_domains.isEmpty && !cfg.allowed_domains.isEmpty && !unapproved.isEmpty then
        .needsApproval
          ("domain(s) " ++ String.intercalate ", " unapproved ++ " not in allowed domains")
          detected_domains
      else
        .allow

/-- `apply_list_update` from `policy.rs`: remove the listed items first
(`retain`), then append each added item that is not already present. -/
def apply_list_update (list : List String) (add remove : List String) : List String :=
  let removed := list.filter (fun item => !remove.contains item)
  add.foldl (fun acc item => if acc.contains item then acc else acc ++ [item]) removed

/-- `PolicyChecker::apply_update` from `policy.rs`: remove-then-add on
each of the four lists; overwrite the approval timeout only when the
update's value is positive. -/
def PolicyConfig.apply_update (cfg : PolicyConfig) (u : PolicyUpdate) : PolicyConfig :=
  { allowed_tools := apply_list_update cfg.allowed_tools u.add_allowed_tools u.remove_allowed_tools
    denied_tools := apply_list_update cfg.denied_tools u.add_denied_tools u.remove_denied_tools
    denied_paths := apply_list_update cfg.denied_paths u.add_denied_paths u.remove_denied_paths
    allowed_domains :=
      apply_list_update cfg.allowed_domains u.add_allowed_domains u.remove_allowed_domains
    approval_timeout_secs :=
      if u.approval_timeout_secs > 0 then u.approval_timeout_secs
      else cfg.approval_timeout_secs }

/-- `SessionMode` from the protocol, as used in `session.rs`. -/
inductive SessionMode where
  | inactive : SessionMode
  | strict : SessionMode
  | trust : SessionMode
  | autoAccept : SessionMode
  deriving Repr, DecidableEq

/-- `SessionDecision` from `session.rs`. -/
inductive SessionDecision where
  | allow : SessionDecision
  | deny (reason : String) : SessionDecision
  | needsApproval (reason : String) (previous_refusals : List RefusalContext) : SessionDecision
  deriving Repr, DecidableEq

/-- `CallerSession` from `session.rs`: mode, trust expiry instant (Trust
only) and configured trust timeout in minutes. -/
structure CallerSession where
  mode : SessionMode
  trust_expires : Option Nat
  trust_timeout_mins : Nat
  deriving Repr, DecidableEq

/-- `RefusalEntry` from `session.rs`: tool, reason, expiry instant
(refused_at + 24 h) and the absolute refusal timestamp in ms. The entry
carries no caller identifier. -/
structure RefusalEntry where
  tool : String
  reason : String
  expires_at : Nat
  refused_at_ms : Nat
  deriving Repr, DecidableEq

/-- `SessionState` from the protocol as built in `session.rs`. -/
structure SessionState where
  caller_uid : String
  mode : SessionMode
  trust_expires_ms : Nat
  trust_timeout_mins : Nat
  deriving Repr, DecidableEq

/-- `SessionManager` state from `session.rs`: per-caller sessions, the
global refusal log, and the default trust timeout in minutes. -/
structure SessionManager where
  sessions : List (String × CallerSession)
  refusal_log : List RefusalEntry
  default_trust_timeout_mins : Nat
  deriving Repr, DecidableEq

/-- Replacement of a caller's entry in the session map (`HashMap` insert
over the association-list model). -/
def sessionsInsert (sessions : List (String × CallerSession)) (caller : String)
    (cs : CallerSession) : List (String × CallerSession) :=
  if sessions.any (fun p => p.1 == caller) then
    sessions.map (fun p => if p.1 == caller then (caller, cs) else p)
  else
    sessions ++ [(caller, cs)]

/-- `SessionManager::record_refusal`: append a `RefusalEntry` expiring 24
hours after `now`; the `_caller_uid` parameter is deliberately unused in
the source, so the log is global across callers. -/
def SessionManager.record_refusal (sm : SessionManager) (_caller_uid : String)
    (tool reason : String) (now now_ms : Nat) : SessionManager :=
  { sm with refusal_log := sm.refusal_log ++
      [{ tool := tool, reason := reason, expires_at := now + 24 * 3600,
         refused_at_ms := now_ms }] }

/-- `SessionManager::get_refusals`: prune entries whose expiry is not in
the future, then return the remaining entries for the given tool as
`RefusalContext`s (also returning the pruned log, since the source
mutates it in place). -/
def SessionManager.get_refusals (sm : SessionManager) (tool : String) (now : Nat) :
    SessionManager × List RefusalContext :=
  let log := sm.refusal_log.filter (fun e => now < e.expires_at)
  ({ sm with refusal_log := log },
   (log.filter (fun e => e.tool == tool)).map
     (fun e => { tool := e.tool, reason := e.reason, refused_at_ms := e.refused_at_ms }))

/-- `SessionManager::check` from `session.rs`: Inactive (or unknown
caller) denies; Strict asks with the tool's recent refusals attached;
Trust allows and slides the expiry, or flips to Inactive once
`now >= trust_expires`; AutoAccept allows. Returns the decision and the
updated manager state. -/
def SessionManager.check (sm : SessionManager) (req : JobRequest) (caller_uid : String)
    (now : Nat) : SessionDecision × SessionManager :=
  match sm.sessions.find? (fun p => p.1 == caller_uid) with
  | none => (.deny "session not activated", sm)
  | some (_, session) =>
    match session.mode with
    | .inactive => (.deny "session not activated", sm)
    | .strict =>
      let (sm', refusals) := sm.get_refusals req.tool now
      (.needsApproval ("strict mode: approval required for " ++ debugQuote req.tool)
        refusals, sm')
    | .trust =>
      match session.trust_expires with
      | some expires =>
        if expires ≤ now then
          let flipped : CallerSession := { session with mode := .inactive, trust_expires := none }
          (.deny "trust expired",
           { sm with sessions := sessionsInsert sm.sessions caller_uid flipped })
        else
          let slid : CallerSession :=
            { session with trust_expires := some (now + session.trust_timeout_mins * 60) }
          (.allow, { sm with sessions := sessionsInsert sm.sessions caller_uid slid })
      | none => (.allow, sm)
    | .autoAccept => (.allow, sm)

/-- `SessionManager::set_mode`: replace the caller's entry (timeout 0
falls back to the default) and return the new `SessionState` together
with the updated manager. -/
def SessionManager.set_mode (sm : SessionManager) (caller_uid : String) (mode : SessionMode)
    (trust_timeout_mins : Nat) (now now_ms : Nat) : SessionState × SessionManager :=
  let timeout := if trust_timeout_mins = 0 then sm.default_trust_timeout_mins
    else trust_timeout_mins
  let trust_expires := if mode = .trust then some (now + timeout * 60) else none
  let trust_expires_ms := match trust_expires with
    | some exp => now_ms + (exp - now) * 1000
    | none => 0
  let session : CallerSession :=
    { mode := mode, trust_expires := trust_expires, trust_timeout_mins := timeout }
  ({ caller_uid := caller_uid, mode := mode, trust_expires_ms := trust_expires_ms,
     trust_timeout_mins := timeout },
   { sm with sessions := sessionsInsert sm.sessions caller_uid session })

/-- `SessionManager::get_session_state`: report the caller's mode, expiry
(as a wall-clock ms value when still in the future) and timeout; an
unknown caller reports Inactive with the default timeout. -/
def SessionManager.get_session_state (sm : SessionManager) (caller_uid : String)
    (now now_ms : Nat) : SessionState :=
  match sm.sessions.find? (fun p => p.1 == caller_uid) with
  | some (_, session) =>
    let trust_expires_ms := match session.trust_expires with
      | some exp => if now < exp then now_ms + (exp - now) * 1000 else 0
      | none => 0
    { caller_uid := caller_uid, mode := session.mode,
      trust_expires_ms := trust_expires_ms,
      trust_timeout_mins := session.trust_timeout_mins }
  | none =>
    { caller_uid := caller_uid, mode := .inactive, trust_expires_ms := 0,
      trust_timeout_mins := sm.default_trust_timeout_mins }

/-- Cached result of a completed job (`registry.rs`). -/
structure CompletedJob where
  exit_code : Int
  error : String
  deriving Repr, DecidableEq

/-- `IsKnown` from `registry.rs`. -/
inductive IsKnown where
  | running : IsKnown
  | completed (result : CompletedJob) : IsKnown
  | unknown : IsKnown
  deriving Repr, DecidableEq

/-- `JobRegistry` state from `registry.rs`: the running-job map (only the
ids matter to the embedded operations), the completed-job deque (head =
front = oldest) and its capacity (1000 in the source). -/
structure JobRegistry where
  jobs : List String
  completed : List (String × CompletedJob)
  max_completed : Nat
  deriving Repr, DecidableEq

/-- Front eviction loop shared by the registry's completed deque and the
outbox buffer: pop the front while the length exceeds the cap. -/
def evictFront {α : Type} (l : List α) (cap : Nat) : List α :=
  if l.length ≤ cap then l else evictFront l.tail cap
termination_by l.length
decreasing_by
  simp_all
  omega

/-- `JobRegistry::is_known`: the running map is checked first, then the
completed deque front to back (first hit wins). -/
def JobRegistry.is_known (reg : JobRegistry) (job_id : String) : IsKnown :=
  if reg.jobs.contains job_id then .running
  else
    match reg.completed.find? (fun p => p.1 == job_id) with
    | some p => .completed p.2
    | none => .unknown

/-- `JobRegistry::register`: insert the job id into the running map. -/
def JobRegistry.register (reg : JobRegistry) (job_id : String) : JobRegistry :=
  if reg.jobs.contains job_id then reg else { reg with jobs := reg.jobs ++ [job_id] }

/-- `JobRegistry::remove`: drop the job id from the running map. -/
def JobRegistry.remove (reg : JobRegistry) (job_id : String) : JobRegistry :=
  { reg with jobs := reg.jobs.filter (fun j => j != job_id) }

/-- `JobRegistry::mark_completed`: push the result onto the back of the
completed deque and evict oldest entries past the cap. -/
def JobRegistry.mark_completed (reg : JobRegistry) (job_id : String) (exit_code : Int)
    (error : String) : JobRegistry :=
  let pushed := reg.completed ++ [(job_id, ⟨exit_code, error⟩)]
  { reg with completed := evictFront pushed reg.max_completed }

/-- `ApprovalManager::submit` from `approval.rs`: build the
`ApprovalRequest` that is broadcast for the pending job. The source sets
`detected_domains: Vec::new()` unconditionally and `expires_ms` to
`now_ms + default_timeout.as_millis()` where the default timeout is
`Duration::from_secs(timeout_secs)`. -/
def ApprovalManager.submit (default_timeout_secs : Nat) (req : JobRequest)
    (caller_uid : String) (reason : String) (previous_refusals : List RefusalContext)
    (now_ms : Nat) : ApprovalRequest :=
  { job_id := req.job_id, tool := req.tool, args := req.args, cwd := req.cwd,
    reason := reason, detected_domains := [],
    expires_ms := now_ms + default_timeout_secs * 1000,
    caller_uid := caller_uid, previous_refusals := previous_refusals }

/-- Result of `Command::spawn` in `executor.rs`: either a child process
or an OS error string. -/
inductive SpawnResult where
  | ok : SpawnResult
  | err (msg : String) : SpawnResult
  deriving Repr, DecidableEq

/-- Outcome of the wait/timeout/cancel race in `executor.rs`: the child
exited (with an exit code, or none when killed by a signal), `wait`
itself failed, the per-job timeout fired, or a cancel signal won. -/
inductive WaitOutcome where
  | exited (code : Option Int) : WaitOutcome
  | waitError (msg : String) : WaitOutcome
  | timedOut : WaitOutcome
  | cancelled : WaitOutcome
  deriving Repr, DecidableEq

/-- The `(exit_code, error)` pair of the terminal `JobFinished` emitted by
`run_job` in `executor.rs` (each branch is one `finish(...)` call site):
spawn failure gives `(-1, <error>)`; timeout gives `(-1, "timeout")`;
cancel gives `(-1, "cancelled")`; a normal exit gives the child's code
(`-1` for signal death) and an empty error; a wait failure gives
`(-1, <error>)`. -/
def run_job_terminal (spawn : SpawnResult) (w : WaitOutcome) : Int × String :=
  match spawn with
  | .err e => (-1, e)
  | .ok =>
    match w with
    | .timedOut => (-1, "timeout")
    | .cancelled => (-1, "cancelled")
    | .exited code => (code.getD (-1), "")
    | .waitError e => (-1, e)

/-- The value `run_job` in `executor.rs` actually returns to its caller:
the function's signature has no return type, so every path returns the
unit value — the terminal pair above is only sent through the envelope
channel. (Its callers in `client.rs` and `ipc.rs` instead destructure
`let (exit_code, error) = run_job(...).await`.) -/
def run_job_return (_spawn : SpawnResult) (_w : WaitOutcome) : Unit := ()

/-- Typed payload variants of the wire `Envelope` (protocol oneof; the
variants carried by the components embedded here keep their fields,
control-plane variants not inspected by the embedded code are bare). -/
inductive Payload where
  | hello (last_ack : Nat) : Payload
  | jobRequest (req : JobRequest) : Payload
  | jobEvent : Payload
  | jobFinished (job_id : String) (exit_code : Int) (error : String) : Payload
  | jobRejected (job_id : String) (reason : String) : Payload
  | cancelJob (job_id : String) : Payload
  | approvalRequest (req : ApprovalRequest) : Payload
  | approvalResponse (resp : ApprovalResponse) : Payload
  | policyQuery : Payload
  | policyState : Payload
  | policyUpdate (u : PolicyUpdate) : Payload
  | setSessionMode : Payload
  | sessionState (s : SessionState) : Payload
  | sessionQuery : Payload
  deriving Repr, DecidableEq

/-- Wire `Envelope`: device id, message id, timestamp, per-connection
sequence number (0 = unstamped), cumulative ack, and one payload. -/
structure Envelope where
  device_id : String
  msg_id : String
  ts_ms : Nat
  seq : Nat
  ack : Nat
  payload : Option Payload
  deriving Repr, DecidableEq

/-- `Outbox` state from `outbox.rs`: next outgoing seq, the peer's
acknowledged watermark, the highest seq received locally, the FIFO of
unacked `(seq, encoded bytes)` pairs (head = front = oldest) and the
buffer cap. The prost encoding is injective, so the buffer stores the
stamped envelope value in place of its encoded bytes. -/
structure Outbox where
  next_seq : Nat
  peer_ack : Nat
  local_ack : Nat
  buffer : List (Nat × Envelope)
  max_buffer : Nat
  deriving Repr, DecidableEq

/-- `Outbox::new`: seq numbering starts at 1, both watermarks at 0, empty
buffer. -/
def Outbox.new (max_buffer : Nat) : Outbox :=
  { next_seq := 1, peer_ack := 0, local_ack := 0, buffer := [], max_buffer := max_buffer }

/-- `Outbox::stamp`: assign `next_seq` (then increment it) and the
current `local_ack` to the envelope; the assigned seq is returned. -/
def Outbox.stamp (ob : Outbox) (e : Envelope) : Outbox × Envelope × Nat :=
  ({ ob with next_seq := ob.next_seq + 1 },
   { e with seq := ob.next_seq, ack := ob.local_ack },
   ob.next_seq)

/-- `Outbox::store`: push the encoded message to the back of the buffer,
then pop the front while over capacity. -/
def Outbox.store (ob : Outbox) (seq : Nat) (data : Envelope) : Outbox :=
  { ob with buffer := evictFront (ob.buffer ++ [(seq, data)]) ob.max_buffer }

/-- `Outbox::on_recv`: raise `local_ack` to a positive peer seq. -/
def Outbox.on_recv (ob : Outbox) (seq : Nat) : Outbox :=
  if ob.local_ack < seq then { ob with local_ack := seq } else ob

/-- `Outbox::on_peer_ack`: raise the `peer_ack` watermark, then pop
buffered entries from the front while their seq is at most the watermark
(the loop stops at the first entry above it). -/
def Outbox.on_peer_ack (ob : Outbox) (ack : Nat) : Outbox :=
  let pa := if ob.peer_ack < ack then ack else ob.peer_ack
  let buf := ob.buffer.dropWhile (fun p => decide (p.1 ≤ pa))
  { ob with peer_ack := pa, buffer := buf }

/-- `Outbox::drain_unacked`: snapshot of the still-buffered messages in
seq order. -/
def Outbox.drain_unacked (ob : Outbox) : List Envelope :=
  ob.buffer.map (fun p => p.2)

/-- `Outbox::pending_count`: number of buffered (unacked) messages. -/
def Outbox.pending_count (ob : Outbox) : Nat :=
  ob.buffer.length

/-- `prepare_outbound` from `outbox.rs`: stamp, encode, store, and hand
back the encoded envelope for the wire. -/
def prepare_outbound (ob : Outbox) (e : Envelope) : Outbox × Envelope :=
  let (ob1, stamped, seq) := ob.stamp e
  (ob1.store seq stamped, stamped)

/-- Repeated `prepare_outbound` over a list of envelopes (the send
worker's loop), keeping the outbox state. -/
def stamp_store_list (ob : Outbox) (es : List Envelope) : Outbox :=
  es.foldl (fun ob e => (prepare_outbound ob e).1) ob

/-- Outbox states reachable from `Outbox::new` through the operations the
daemon performs on a connection (`prepare_outbound` on send, `on_recv`
and `on_peer_ack` on receive). -/
inductive Outbox.Reachable : Outbox → Prop where
  | new (max_buffer : Nat) : Outbox.Reachable (Outbox.new max_buffer)
  | prep (ob : Outbox) (e : Envelope) :
      Outbox.Reachable ob → Outbox.Reachable (prepare_outbound ob e).1
  | recv (ob : Outbox) (seq : Nat) :
      Outbox.Reachable ob → Outbox.Reachable (ob.on_recv seq)
  | ack (ob : Outbox) (a : Nat) :
      Outbox.Reachable ob → Outbox.Reachable (ob.on_peer_ack a)

/-- Outcome of handling one incoming `JobRequest`, naming the action the
pipeline takes: drop the duplicate, replay the cached `JobFinished`,
emit `JobRejected`, spawn the executor, or enter the approval path (with
the session manager's refusal context on the controller channel, or the
policy evaluator's detected domains on the operator channel). -/
inductive JobOutcome where
  | dropped : JobOutcome
  | finishedFromCache (exit_code : Int) (error : String) : JobOutcome
  | rejected (reason : String) : JobOutcome
  | spawned : JobOutcome
  | sessionApproval (reason : String) (previous_refusals : List RefusalContext) : JobOutcome
  | policyApproval (reason : String) (detected_domains : List String) : JobOutcome
  deriving Repr, DecidableEq

/-- `handle_job_request` from `client.rs` (the controller channel):
idempotency against the registry first (Running → drop; Completed →
synthesize `JobFinished` from the cached result), then the session
check — Deny emits `JobRejected`, Allow calls `spawn_job` directly, and
NeedsApproval submits to the approval manager. The function has no
`PolicyChecker` input because the source never consults one on this
channel (`main.rs` binds the constructed checker to the unused
`_policy`). -/
def handle_job_request (reg : JobRegistry) (sm : SessionManager) (req : JobRequest)
    (caller_uid : String) (now : Nat) : JobOutcome × SessionManager :=
  match reg.is_known req.job_id with
  | .running => (.dropped, sm)
  | .completed c => (.finishedFromCache c.exit_code c.error, sm)
  | .unknown =>
    match sm.check req caller_uid now with
    | (.deny reason, sm') => (.rejected reason, sm')
    | (.allow, sm') => (.spawned, sm')
    | (.needsApproval reason prev, sm') => (.sessionApproval reason prev, sm')

/-- The `JobRequest` arm of `handle_ipc_conn` from `ipc.rs` (the operator
channel): the same idempotency check, then the three-way policy check —
Deny emits `JobRejected`, Allow registers and spawns, NeedsApproval
submits to the approval manager with the detected domains. No session
check is performed on this channel. -/
def handle_ipc_job_request (reg : JobRegistry) (pc : PolicyChecker) (req : JobRequest)
    (caller_uid : String) : JobOutcome :=
  match reg.is_known req.job_id with
  | .running => .dropped
  | .completed c => .finishedFromCache c.exit_code c.error
  | .unknown =>
    match pc.check req caller_uid with
    | .deny reason => .rejected reason
    | .allow => .spawned
    | .needsApproval reason doms => .policyApproval reason doms

/-- Terminal action of an approval waiter task. -/
inductive WaiterAction where
  | spawn : WaiterAction
  | reject (reason : String) : WaiterAction
  deriving Repr, DecidableEq

/-- Effect of one approval waiter run: the terminal action, whether
`record_refusal` was called, and whether the pending entry was expired. -/
structure WaiterEffect where
  action : WaiterAction
  refusal_recorded : Bool
  expired : Bool
  deriving Repr, DecidableEq

/-- The approval waiter spawned by `handle_job_request` in `client.rs`:
`res` is the raced one-shot result (`none` covers both the timeout and a
dropped sender, which share the `_` arm). Approved → spawn; denied →
record the refusal when the reason is non-empty, expire, and reject with
"approval denied" (or "approval denied: <reason>"); timeout → expire and
reject with "approval timed out". -/
def controller_approval_wait (res : Option ApprovalResponse) : WaiterEffect :=
  match res with
  | some resp =>
    if resp.approved then { action := .spawn, refusal_recorded := false, expired := false }
    else
      { action := .reject (if resp.reason.data.isEmpty then "approval denied"
          else "approval denied: " ++ resp.reason),
        refusal_recorded := !resp.reason.data.isEmpty,
        expired := true }
  | none =>
    { action := .reject "approval timed out", refusal_recorded := false, expired := true }

/-- The approval waiter spawned by `handle_ipc_conn` in `ipc.rs`: only an
approved response spawns; every other result (denial with or without a
reason, and timeout) shares one arm that expires the entry and rejects
with the single reason string "approval denied or timed out", recording
no refusal. -/
def ipc_approval_wait (res : Option ApprovalResponse) : WaiterEffect :=
  match res with
  | some resp =>
    if resp.approved then { action := .spawn, refusal_recorded := false, expired := false }
    else
      { action := .reject "approval denied or timed out", refusal_recorded := false,
        expired := true }
  | none =>
    { action := .reject "approval denied or timed out", refusal_recorded := false,
      expired := true }

/-! Concrete fixtures used by the scenario claims. -/

/-- Policy of spec scenario 7: allowed-tools `["curl"]`, allowed-domains
`["example.com"]`, no session memory. -/
def scenarioPolicy : PolicyChecker :=
  { config := { allowed_tools := ["curl"], denied_tools := [], denied_paths := [],
                allowed_domains := ["example.com"], approval_timeout_secs := 300 },
    session_approvals := [] }

/-- The request `curl https://evil.test/path`. -/
def reqCurlEvil : JobRequest :=
  { job_id := "J-evil", tool := "curl", args := ["https://evil.test/path"], cwd := "",
    env := [], timeout_ms := 0 }

/-- The request `curl https://example.com/path`. -/
def reqCurlOk : JobRequest :=
  { job_id := "J-ok", tool := "curl", args := ["https://example.com/path"], cwd := "",
    env := [], timeout_ms := 0 }

/-- An empty registry (no running jobs, no completed cache). -/
def emptyRegistry : JobRegistry :=
  { jobs := [], completed := [], max_completed := 1000 }

/-- A session manager whose `"cloud"` caller is in AutoAccept mode. -/
def smCloudAuto : SessionManager :=
  { sessions := [("cloud", { mode := .autoAccept, trust_expires := none,
                             trust_timeout_mins := 60 })],
    refusal_log := [], default_trust_timeout_mins := 60 }

/-- A policy checker whose config puts `rm` on the deny list. -/
def pcDenyRm : PolicyChecker :=
  { config := { allowed_tools := [], denied_tools := ["rm"], denied_paths := [],
                allowed_domains := [], approval_timeout_secs := 300 },
    session_approvals := [] }

/-- The request `rm -rf /tmp/x`. -/
def reqRm : JobRequest :=
  { job_id := "J-rm", tool := "rm", args := ["-rf", "/tmp/x"], cwd := "", env := [],
    timeout_ms := 0 }

/-- A sample previous-refusals context. -/
def sampleRefusals : List RefusalContext :=
  [{ tool := "curl", reason := "not today", refused_at_ms := 5 }]

/-- C7: with policy allowed-tools `["curl"]` and allowed-domains
`["example.com"]`, evaluating `curl https://evil.test/path` yields
NeedsApproval whose reason cites the domain evil.test, and evaluating
`curl https://example.com/path` yields Allow. -/
theorem c7_domain_extraction :
    scenarioPolicy.check reqCurlEvil "uid:1000"
        = .needsApproval "domain(s) evil.test not in allowed domains" ["evil.test"]
      ∧ scenarioPolicy.check reqCurlOk "uid:1000" = .allow := by
  constructor
  · decide
  · decide

/-- C4 (evidence of the divergence): `ApprovalManager::submit` carries
tool, args, cwd, reason, previous refusals, caller and
`expiry = now + default_timeout` into the `ApprovalRequest`, but its
`detected_domains` field is hardcoded to the empty vector even when the
policy evaluator detected domains for the request (here `evil.test`), so
the detected domains are never attached. -/
theorem c4_submit_fields :
    ApprovalManager.submit 60 reqCurlEvil "uid:1000" "needs approval" sampleRefusals 1000
        = { job_id := "J-evil", tool := "curl", args := ["https://evil.test/path"],
            cwd := "", reason := "needs approval", detected_domains := [],
            expires_ms := 1000 + 60 * 1000, caller_uid := "uid:1000",
            previous_refusals := sampleRefusals }
      ∧ extract_domains reqCurlEvil.tool reqCurlEvil.args = ["evil.test"]
      ∧ (ApprovalManager.submit 60 reqCurlEvil "uid:1000" "needs approval" sampleRefusals
          1000).detected_domains ≠ extract_domains reqCurlEvil.tool reqCurlEvil.args := by
  refine ⟨by decide, by decide, by decide⟩

/-- C3 (evidence of the divergence): the terminal `(exit_code, error)`
pairs `run_job` emits as `JobFinished` envelopes are as documented —
`(code, "")` on normal exit, `(-1, "timeout")` on timeout,
`(-1, <spawn error>)` on spawn failure — but the value `run_job` returns
to its caller is the unit value on every path, so the caller cannot
obtain the tuple from the return value (its callers in `client.rs` and
`ipc.rs` nevertheless destructure the return as a tuple and feed it to
`mark_completed`). -/
theorem c3_run_job_terminal :
    run_job_terminal .ok (.exited (some 0)) = (0, "")
      ∧ run_job_terminal .ok .timedOut = (-1, "timeout")
      ∧ run_job_terminal .ok .cancelled = (-1, "cancelled")
      ∧ run_job_terminal (.err "No such file or directory (os error 2)") (.exited none)
          = (-1, "No such file or directory (os error 2)")
      ∧ ∀ (s t : SpawnResult) (w v : WaitOutcome), run_job_return s w = run_job_return t v := by
  exact ⟨by decide, by decide, by decide, by decide, fun _ _ _ _ => rfl⟩

/-- C1 (counterexample): on the controller channel, a request whose
session check returns Allow (caller `"cloud"` in AutoAccept) is spawned
even though the policy evaluator — had it been consulted — returns Deny
for the same request (`rm` is on the deny list), so the job is spawned
without the policy evaluator being consulted and policy Deny does not
yield JobRejected there. -/
theorem c1_counterexample :
    (handle_job_request emptyRegistry smCloudAuto reqRm "cloud" 0).1 = .spawned
      ∧ pcDenyRm.check reqRm "cloud" = .deny "tool \"rm\" is in the deny list"
      ∧ JobOutcome.spawned ≠ JobOutcome.rejected "tool \"rm\" is in the deny list" := by
  refine ⟨by decide, by decide, by decide⟩

/-- C8 (counterexample): on the operator (IPC) channel, a denial whose
response carries the non-empty reason "too risky" is answered with
`JobRejected` reason "approval denied or timed out" — not
"approval denied: too risky" — and no refusal is recorded. -/
theorem c8_counterexample :
    ipc_approval_wait (some ⟨"J8", false, "too risky", false⟩)
        = ⟨.reject "approval denied or timed out", false, true⟩
      ∧ ("approval denied or timed out" : String) ≠ "approval denied: too risky" := by
  refine ⟨by decide, by decide⟩

/-- Helper: a string is the empty literal exactly when its character list
is empty. -/
theorem string_eq_empty_iff (s : String) : s = "" ↔ s.data = [] := by
  constructor
  · intro h
    rw [h]
  · intro h
    cases s
    cases h
    rfl

/-- C2: on both channels, a JobRequest whose job id the registry reports
as Running is dropped with no spawn; one reported Completed is answered
with a JobFinished synthesized from the cached `(exit_code, error)` and
no spawn; a job id observed as Running or Completed never reaches the
spawn action. -/
theorem c2_idempotent_duplicates (reg : JobRegistry) (sm : SessionManager)
    (pc : PolicyChecker) (req : JobRequest) (caller : String) (now : Nat) :
    (reg.is_known req.job_id = .running →
        (handle_job_request reg sm req caller now).1 = .dropped
      ∧ handle_ipc_job_request reg pc req caller = .dropped)
  ∧ (∀ c, reg.is_known req.job_id = .completed c →
        (handle_job_request reg sm req caller now).1 = .finishedFromCache c.exit_code c.error
      ∧ handle_ipc_job_request reg pc req caller = .finishedFromCache c.exit_code c.error)
  ∧ ((reg.is_known req.job_id = .running ∨ ∃ c, reg.is_known req.job_id = .completed c) →
        (handle_job_request reg sm req caller now).1 ≠ .spawned
      ∧ handle_ipc_job_request reg pc req caller ≠ .spawned) := by
  refine ⟨?_, ?_, ?_⟩
  · intro h
    exact ⟨by simp [handle_job_request, h], by simp [handle_ipc_job_request, h]⟩
  · intro c h
    exact ⟨by simp [handle_job_request, h], by simp [handle_ipc_job_request, h]⟩
  · rintro (h | ⟨c, h⟩) <;>
      exact ⟨by simp [handle_job_request, h], by simp [handle_ipc_job_request, h]⟩

/-- Registry fixture with `"J1"` running and `"J2"` completed with
`(0, "")`. -/
def regBusy : JobRegistry :=
  { jobs := ["J1"], completed := [("J2", ⟨0, ""⟩)], max_completed := 1000 }

/-- Witness for C2: a duplicate of running `"J1"` is dropped and a
duplicate of completed `"J2"` is answered from the cache. -/
theorem c2_idempotent_duplicates_witness :
    (handle_job_request regBusy smCloudAuto ⟨"J1", "echo", [], "", [], 0⟩ "cloud" 0).1
        = .dropped
      ∧ handle_ipc_job_request regBusy scenarioPolicy ⟨"J2", "echo", [], "", [], 0⟩ "cloud"
        = .finishedFromCache 0 "" := by
  constructor
  · exact ((c2_idempotent_duplicates regBusy smCloudAuto scenarioPolicy
      ⟨"J1", "echo", [], "", [], 0⟩ "cloud" 0).1 (by decide)).1
  · exact ((c2_idempotent_duplicates regBusy smCloudAuto scenarioPolicy
      ⟨"J2", "echo", [], "", [], 0⟩ "cloud" 0).2.1 ⟨0, ""⟩ (by decide)).2

/-- C1 (amended): on the controller channel the session decision alone
gates spawning — a session Allow leads directly to spawn, with no policy
evaluator in the pipeline — while the three-way policy check drives the
operator (IPC) channel, where Deny yields JobRejected, Allow yields
spawn, and NeedsApproval yields the approval path. -/
theorem c1_session_gates_controller (reg : JobRegistry) (sm sm' : SessionManager)
    (pc : PolicyChecker) (req : JobRequest) (caller : String) (now : Nat)
    (hunknown : reg.is_known req.job_id = .unknown) :
    (sm.check req caller now = (.allow, sm') →
        handle_job_request reg sm req caller now = (.spawned, sm'))
  ∧ (∀ r, pc.check req caller = .deny r →
        handle_ipc_job_request reg pc req caller = .rejected r)
  ∧ (pc.check req caller = .allow → handle_ipc_job_request reg pc req caller = .spawned)
  ∧ (∀ r ds, pc.check req caller = .needsApproval r ds →
        handle_ipc_job_request reg pc req caller = .policyApproval r ds) := by
  refine ⟨?_, ?_, ?_, ?_⟩
  · intro h
    simp [handle_job_request, hunknown, h]
  · intro r h
    simp [handle_ipc_job_request, hunknown, h]
  · intro h
    simp [handle_ipc_job_request, hunknown, h]
  · intro r ds h
    simp [handle_ipc_job_request, hunknown, h]

/-- Witness for the amended C1: the AutoAccept `"cloud"` session spawns
`rm` directly on the controller channel, while the IPC channel rejects
the same request through the policy deny list. -/
theorem c1_session_gates_controller_witness :
    handle_job_request emptyRegistry smCloudAuto reqRm "cloud" 0 = (.spawned, smCloudAuto)
      ∧ handle_ipc_job_request emptyRegistry pcDenyRm reqRm "cloud"
        = .rejected "tool \"rm\" is in the deny list" := by
  constructor
  · exact (c1_session_gates_controller emptyRegistry smCloudAuto smCloudAuto pcDenyRm reqRm
      "cloud" 0 (by decide)).1 (by decide)
  · exact (c1_session_gates_controller emptyRegistry smCloudAuto smCloudAuto pcDenyRm reqRm
      "cloud" 0 (by decide)).2.1 _ (by decide)

/-- C8 (amended): on the controller channel a denial with a non-empty
reason records the refusal, expires the entry and rejects with
"approval denied: <reason>" (plain "approval denied" when empty), and a
timeout expires the entry and rejects with "approval timed out"; the
operator (IPC) channel instead answers every non-approval — denial with
or without reason, and timeout — with the single reason
"approval denied or timed out" and records no refusal. -/
theorem c8_denial_reasons (resp : ApprovalResponse) (hdeny : resp.approved = false) :
    (resp.reason ≠ "" →
        controller_approval_wait (some resp)
          = ⟨.reject ("approval denied: " ++ resp.reason), true, true⟩)
  ∧ (resp.reason = "" →
        controller_approval_wait (some resp) = ⟨.reject "approval denied", false, true⟩)
  ∧ controller_approval_wait none = ⟨.reject "approval timed out", false, true⟩
  ∧ ipc_approval_wait (some resp) = ⟨.reject "approval denied or timed out", false, true⟩
  ∧ ipc_approval_wait none = ⟨.reject "approval denied or timed out", false, true⟩ := by
  refine ⟨?_, ?_, rfl, ?_, rfl⟩
  · intro hne
    have hd : resp.reason.data ≠ [] := fun h => hne ((string_eq_empty_iff resp.reason).2 h)
    have hb : resp.reason.data.isEmpty = false := by
      cases hdata : resp.reason.data with
      | nil => exact absurd hdata hd
      | cons c cs => rfl
    simp [controller_approval_wait, hdeny, hb]
  · intro he
    have hb : resp.reason.data.isEmpty = true := by
      rw [(string_eq_empty_iff resp.reason).1 he]
      rfl
    simp [controller_approval_wait, hdeny, hb]
  · simp [ipc_approval_wait, hdeny]

/-- Witness for the amended C8: applying the denial shape at the
response `("J8", denied, "too risky")`. -/
theorem c8_denial_reasons_witness :
    controller_approval_wait (some ⟨"J8", false, "too risky", false⟩)
        = ⟨.reject "approval denied: too risky", true, true⟩
      ∧ ipc_approval_wait (some ⟨"J8", false, "too risky", false⟩)
        = ⟨.reject "approval denied or timed out", false, true⟩ := by
  constructor
  · exact (c8_denial_reasons ⟨"J8", false, "too risky", false⟩ rfl).1 (by decide)
  · exact (c8_denial_reasons ⟨"J8", false, "too risky", false⟩ rfl).2.2.2.1

/-- Helper: membership across the add phase of `apply_list_update` — the
fold adds exactly the new items of `add`. -/
theorem mem_add_fold (add acc : List String) (y : String) :
    y ∈ add.foldl (fun acc item => if acc.contains item then acc else acc ++ [item]) acc
      ↔ y ∈ acc ∨ y ∈ add := by
  induction add generalizing acc with
  | nil => simp
  | cons a as ih =>
    simp only [List.foldl_cons]
    by_cases hc : acc.contains a = true
    · rw [if_pos hc, ih]
      have ha : a ∈ acc := by simpa using hc
      constructor
      · rintro (hy | hy)
        · exact Or.inl hy
        · exact Or.inr (List.mem_cons_of_mem _ hy)
      · rintro (hy | hy)
        · exact Or.inl hy
        · rcases List.mem_cons.1 hy with h1 | h1
          · exact Or.inl (h1 ▸ ha)
          · exact Or.inr h1
    · rw [if_neg hc, ih]
      simp only [List.mem_append, List.mem_singleton, List.mem_cons]
      tauto

/-- Helper: the add phase of `apply_list_update` only appends (it never
reorders or drops the retained items), and everything appended comes from
the add list. -/
theorem add_fold_append (add acc : List String) :
    ∃ rest, add.foldl (fun acc item => if acc.contains item then acc else acc ++ [item]) acc
        = acc ++ rest ∧ ∀ z ∈ rest, z ∈ add := by
  induction add generalizing acc with
  | nil => exact ⟨[], by simp, by simp⟩
  | cons a as ih =>
    simp only [List.foldl_cons]
    by_cases hc : acc.contains a = true
    · rw [if_pos hc]
      obtain ⟨rest, heq, hsub⟩ := ih acc
      exact ⟨rest, heq, fun z hz => List.mem_cons_of_mem _ (hsub z hz)⟩
    · rw [if_neg hc]
      obtain ⟨rest, heq, hsub⟩ := ih (acc ++ [a])
      refine ⟨a :: rest, ?_, ?_⟩
      · rw [heq]
        simp
      · intro z hz
        rcases List.mem_cons.1 hz with h1 | h1
        · exact h1 ▸ List.mem_cons_self _ _
        · exact List.mem_cons_of_mem _ (hsub z h1)

/-- Helper: the add phase of `apply_list_update` keeps the list free of
duplicates. -/
theorem nodup_add_fold (add acc : List String) (h : acc.Nodup) :
    (add.foldl (fun acc item => if acc.contains item then acc
      else acc ++ [item]) acc).Nodup := by
  induction add generalizing acc with
  | nil => exact h
  | cons a as ih =>
    simp only [List.foldl_cons]
    by_cases hc : acc.contains a = true
    · rw [if_pos hc]
      exact ih _ h
    · rw [if_neg hc]
      have ha : a ∉ acc := fun hmem => hc (by simpa using hmem)
      exact ih _ (by simp [List.nodup_append, h, ha])

/-- Helper: adding a single item is an append-if-absent. -/
theorem apply_list_update_single (l : List String) (x : String) :
    apply_list_update l [x] [] = if x ∈ l then l else l ++ [x] := by
  simp [apply_list_update]

/-- C9: `apply_update` treats each policy list by removing the listed
items first and then appending the new ones — an element survives exactly
when it was present and not removed, or was added; the retained items are
kept in place (the result is the filtered original followed only by items
of the add list); a duplicate-free list stays duplicate-free; applying
`add=[x], remove=[]` twice leaves `x` present exactly once; and the
approval timeout is overwritten only for a positive update value. -/
theorem c9_apply_update_remove_then_add (l add rm : List String) (x y : String)
    (cfg : PolicyConfig) (u : PolicyUpdate) :
    (y ∈ apply_list_update l add rm ↔ (y ∈ l ∧ y ∉ rm) ∨ y ∈ add)
  ∧ (∃ rest, apply_list_update l add rm
        = l.filter (fun item => !rm.contains item) ++ rest ∧ ∀ z ∈ rest, z ∈ add)
  ∧ (l.Nodup → (apply_list_update l add rm).Nodup)
  ∧ (l.count x ≤ 1 →
      (apply_list_update (apply_list_update l [x] []) [x] []).count x = 1)
  ∧ (u.approval_timeout_secs = 0 →
      (cfg.apply_update u).approval_timeout_secs = cfg.approval_timeout_secs)
  ∧ (0 < u.approval_timeout_secs →
      (cfg.apply_update u).approval_timeout_secs = u.approval_timeout_secs) := by
  refine ⟨?_, ?_, ?_, ?_, ?_, ?_⟩
  · rw [apply_list_update, mem_add_fold]
    simp [List.mem_filter]
  · exact add_fold_append add _
  · intro h
    exact nodup_add_fold add _ (h.filter _)
  · intro hcount
    rw [apply_list_update_single, apply_list_update_single]
    by_cases hx : x ∈ l
    · rw [if_pos hx, if_pos hx]
      exact Nat.le_antisymm hcount (List.count_pos_iff.2 hx)
    · rw [if_neg hx, if_pos (by simp)]
      simp [List.count_append, List.count_eq_zero_of_not_mem hx]
  · intro h
    simp [PolicyConfig.apply_update, h]
  · intro h
    simp [PolicyConfig.apply_update, Nat.pos_iff_ne_zero.1 h]

/-- Witness for C9: adding `"x"` twice to the allowed list `["a"]` leaves
it present exactly once, and a zero-timeout update keeps the configured
timeout of 300 while a positive one overwrites it. -/
theorem c9_apply_update_remove_then_add_witness :
    (apply_list_update (apply_list_update ["a"] ["x"] []) ["x"] []).count "x" = 1
      ∧ (scenarioPolicy.config.apply_update
          ⟨["x"], [], [], [], [], [], [], [], 0⟩).approval_timeout_secs = 300
      ∧ (scenarioPolicy.config.apply_update
          ⟨["x"], [], [], [], [], [], [], [], 60⟩).approval_timeout_secs = 60 := by
  refine ⟨?_, ?_, ?_⟩
  · exact (c9_apply_update_remove_then_add ["a"] [] [] "x" "y" scenarioPolicy.config
      ⟨["x"], [], [], [], [], [], [], [], 0⟩).2.2.2.1 (by decide)
  · exact (c9_apply_update_remove_then_add ["a"] [] [] "x" "y" scenarioPolicy.config
      ⟨["x"], [], [], [], [], [], [], [], 0⟩).2.2.2.2.1 (by decide)
  · exact (c9_apply_update_remove_then_add ["a"] [] [] "x" "y" scenarioPolicy.config
      ⟨["x"], [], [], [], [], [], [], [], 60⟩).2.2.2.2.2 (by decide)

/-- Helper: replacing every entry of a given key in the session map keeps
the first hit of a lookup for that key, now carrying the new session. -/
theorem find_map_replace (sessions : List (String × CallerSession)) (caller : String)
    (cs' : CallerSession) :
    (sessions.map (fun p => if p.1 == caller then (caller, cs') else p)).find?
        (fun p => p.1 == caller)
      = if sessions.any (fun p => p.1 == caller) then some (caller, cs') else none := by
  induction sessions with
  | nil => simp
  | cons p ps ih =>
    simp only [List.map_cons, List.any_cons]
    by_cases h : (p.1 == caller) = true
    · rw [if_pos h, List.find?_cons_of_pos _ (by simp), if_pos (by simp [h])]
    · have hb : (p.1 == caller) = false := by
        cases hq : (p.1 == caller) with
        | true => exact absurd hq h
        | false => rfl
      rw [if_neg h, List.find?_cons_of_neg _ (by simp [hb]), ih]
      simp only [hb, Bool.false_or]

/-- Helper: appending a fresh entry to a session map without the key
makes the lookup for that key find it. -/
theorem find_append_new (sessions : List (String × CallerSession)) (caller : String)
    (cs' : CallerSession) (h : sessions.any (fun p => p.1 == caller) = false) :
    (sessions ++ [(caller, cs')]).find? (fun p => p.1 == caller) = some (caller, cs') := by
  induction sessions with
  | nil => simp
  | cons p ps ih =>
    simp only [List.any_cons, Bool.or_eq_false_iff] at h
    rw [List.cons_append, List.find?_cons_of_neg _ (by simp [h.1]), ih h.2]

/-- Helper: after `sessionsInsert`, the lookup for the inserted caller
returns exactly the inserted session. -/
theorem sessionsInsert_find (sessions : List (String × CallerSession)) (caller : String)
    (cs' : CallerSession) :
    (sessionsInsert sessions caller cs').find? (fun p => p.1 == caller)
      = some (caller, cs') := by
  rw [sessionsInsert]
  by_cases h : sessions.any (fun p => p.1 == caller) = true
  · rw [if_pos h, find_map_replace, if_pos h]
  · have hb : sessions.any (fun p => p.1 == caller) = false := by
      cases hq : sessions.any (fun p => p.1 == caller) with
      | true => exact absurd hq h
      | false => rfl
    rw [if_neg h]
    exact find_append_new sessions caller cs' hb

/-- Session manager fixture: caller `"op"` in Trust mode with expiry at
instant 600 and a 10-minute timeout. -/
def smTrust : SessionManager :=
  { sessions := [("op", { mode := .trust, trust_expires := some 600, trust_timeout_mins := 10 })],
    refusal_log := [], default_trust_timeout_mins := 60 }

/-- C6: `set_mode(Trust, t)` installs `trust_expires = now + t*60`; for a
caller in Trust mode, a check strictly before the expiry returns Allow
and slides the expiry to now plus the configured timeout, while a check
at or after the expiry returns Deny and flips the session to Inactive, so
a subsequent `get_session_state` reports Inactive. -/
theorem c6_trust_sliding_window (sm : SessionManager) (caller : String) (cs : CallerSession)
    (req : JobRequest) (e now : Nat)
    (hfind : sm.sessions.find? (fun p => p.1 == caller) = some (caller, cs))
    (hmode : cs.mode = .trust) (hexp : cs.trust_expires = some e) :
    (∀ t now2 now2_ms, t ≠ 0 →
        ((sm.set_mode caller .trust t now2 now2_ms).2.sessions.find? (fun p => p.1 == caller))
          = some (caller, ⟨.trust, some (now2 + t * 60), t⟩))
  ∧ (now < e →
        (sm.check req caller now).1 = .allow
      ∧ ((sm.check req caller now).2.sessions.find? (fun p => p.1 == caller))
          = some (caller, ⟨.trust, some (now + cs.trust_timeout_mins * 60), cs.trust_timeout_mins⟩))
  ∧ (e ≤ now →
        (sm.check req caller now).1 = .deny "trust expired"
      ∧ ((sm.check req caller now).2.sessions.find? (fun p => p.1 == caller))
          = some (caller, ⟨.inactive, none, cs.trust_timeout_mins⟩)
      ∧ ∀ now3 now3_ms,
          ((sm.check req caller now).2.get_session_state caller now3 now3_ms).mode
            = .inactive) := by
  obtain ⟨m, te, tt⟩ := cs
  dsimp only at hmode hexp
  subst hmode
  subst hexp
  refine ⟨?_, ?_, ?_⟩
  · intro t now2 now2_ms ht
    simp [SessionManager.set_mode, ht, sessionsInsert_find]
  · intro hlt
    have hif : ¬ (e ≤ now) := Nat.not_le.2 hlt
    constructor
    · simp [SessionManager.check, hfind, hif]
    · simp [SessionManager.check, hfind, hif, sessionsInsert_find]
  · intro hge
    refine ⟨?_, ?_, ?_⟩
    · simp [SessionManager.check, hfind, hge]
    · simp [SessionManager.check, hfind, hge, sessionsInsert_find]
    · intro now3 now3_ms
      simp [SessionManager.check, hfind, hge, sessionsInsert_find,
        SessionManager.get_session_state]

/-- Witness for C6 at the `"op"` Trust session expiring at 600: a check
at 599 allows, a check at 600 denies, and the state afterwards reports
Inactive. -/
theorem c6_witness :
    (smTrust.check reqRm "op" 599).1 = .allow
  ∧ (smTrust.check reqRm "op" 600).1 = .deny "trust expired"
  ∧ ((smTrust.check reqRm "op" 600).2.get_session_state "op" 700 700000).mode = .inactive := by
  refine ⟨?_, ?_, ?_⟩
  · exact ((c6_trust_sliding_window smTrust "op" ⟨.trust, some 600, 10⟩ reqRm 600 599
      (by decide) rfl rfl).2.1 (by decide)).1
  · exact ((c6_trust_sliding_window smTrust "op" ⟨.trust, some 600, 10⟩ reqRm 600 600
      (by decide) rfl rfl).2.2 (by decide)).1
  · exact ((c6_trust_sliding_window smTrust "op" ⟨.trust, some 600, 10⟩ reqRm 600 600
      (by decide) rfl rfl).2.2 (by decide)).2.2 700 700000

/-- Session manager fixture: caller `"uid:1001"` in Strict mode, empty
refusal log. -/
def smStrict : SessionManager :=
  { sessions := [("uid:1001", { mode := .strict, trust_expires := none, trust_timeout_mins := 60 })],
    refusal_log := [], default_trust_timeout_mins := 60 }

/-- C10: `record_refusal` discards the caller identifier it is given
(the two record calls are literally equal), so a refusal recorded during
caller A's session is returned by `get_refusals` for that tool within the
24-hour window and attached to caller B's Strict-mode approval request,
for any two callers A and B. -/
theorem c10_refusal_log_global (sm : SessionManager) (a b tool reason : String)
    (req : JobRequest) (cs : CallerSession) (now now_ms now2 : Nat)
    (hreq : req.tool = tool)
    (hfind : sm.sessions.find? (fun p => p.1 == b) = some (b, cs))
    (hmode : cs.mode = .strict)
    (hwin : now2 < now + 24 * 3600) :
    (∀ a2, sm.record_refusal a tool reason now now_ms
        = sm.record_refusal a2 tool reason now now_ms)
  ∧ (⟨tool, reason, now_ms⟩ : RefusalContext)
      ∈ ((sm.record_refusal a tool reason now now_ms).get_refusals tool now2).2
  ∧ ∃ refusals,
      ((sm.record_refusal a tool reason now now_ms).check req b now2).1
        = .needsApproval ("strict mode: approval required for " ++ debugQuote tool) refusals
      ∧ (⟨tool, reason, now_ms⟩ : RefusalContext) ∈ refusals := by
  have hmem : (⟨tool, reason, now_ms⟩ : RefusalContext)
      ∈ ((sm.record_refusal a tool reason now now_ms).get_refusals tool now2).2 := by
    refine List.mem_map.2 ⟨⟨tool, reason, now + 24 * 3600, now_ms⟩, ?_, rfl⟩
    refine List.mem_filter.2 ⟨?_, by simp⟩
    refine List.mem_filter.2 ⟨?_, by simpa using hwin⟩
    simp [SessionManager.record_refusal]
  refine ⟨fun a2 => rfl, hmem, ?_⟩
  refine ⟨((sm.record_refusal a tool reason now now_ms).get_refusals tool now2).2, ?_, hmem⟩
  have hfind2 : (sm.record_refusal a tool reason now now_ms).sessions.find?
      (fun p => p.1 == b) = some (b, cs) := hfind
  simp [SessionManager.check, hfind2, hmode, hreq]

/-- Witness for C10: a refusal recorded under caller `"cloud"` surfaces
in caller `"uid:1001"`'s Strict-mode check of a `curl` request. -/
theorem c10_witness :
    (⟨"curl", "nope", 77⟩ : RefusalContext)
      ∈ ((smStrict.record_refusal "cloud" "curl" "nope" 0 77).get_refusals "curl" 100).2
  ∧ ∃ refusals,
      ((smStrict.record_refusal "cloud" "curl" "nope" 0 77).check reqCurlEvil "uid:1001" 100).1
        = .needsApproval ("strict mode: approval required for " ++ debugQuote "curl") refusals
      ∧ (⟨"curl", "nope", 77⟩ : RefusalContext) ∈ refusals := by
  constructor
  · exact (c10_refusal_log_global smStrict "cloud" "uid:1001" "curl" "nope" reqCurlEvil
      ⟨.strict, none, 60⟩ 0 77 100 rfl (by decide) rfl (by decide)).2.1
  · exact (c10_refusal_log_global smStrict "cloud" "uid:1001" "curl" "nope" reqCurlEvil
      ⟨.strict, none, 60⟩ 0 77 100 rfl (by decide) rfl (by decide)).2.2

/-- Helper: the front-eviction loop is a `drop` of the overflow. -/
theorem evictFront_eq_drop {α : Type} (l : List α) (cap : Nat) :
    evictFront l cap = l.drop (l.length - cap) := by
  induction l with
  | nil => simp [evictFront]
  | cons x xs ih =>
    rw [evictFront]
    by_cases h : (x :: xs).length ≤ cap
    · rw [if_pos h]
      have h0 : (x :: xs).length - cap = 0 := Nat.sub_eq_zero_of_le h
      rw [h0, List.drop_zero]
    · rw [if_neg h, List.tail_cons, ih]
      have hlen : (x :: xs).length - cap = (xs.length - cap) + 1 := by
        simp only [List.length_cons] at h ⊢
        omega
      rw [hlen, List.drop_succ_cons]

/-- Helper: eviction only removes entries. -/
theorem evictFront_sublist {α : Type} (l : List α) (cap : Nat) :
    List.Sublist (evictFront l cap) l := by
  rw [evictFront_eq_drop]
  exact List.drop_sublist _ _

/-- Invariant of the outbox buffer: every buffered seq is below
`next_seq`, and the buffer is strictly sorted by seq (entries are stored
in stamping order). -/
def OutboxInv (ob : Outbox) : Prop :=
  (∀ p ∈ ob.buffer, p.1 < ob.next_seq) ∧ ob.buffer.Pairwise (fun p q => p.1 < q.1)

/-- Helper: `on_recv` touches only `local_ack`. -/
theorem on_recv_buffer (ob : Outbox) (s : Nat) :
    (ob.on_recv s).buffer = ob.buffer ∧ (ob.on_recv s).next_seq = ob.next_seq := by
  rw [Outbox.on_recv]
  split <;> exact ⟨rfl, rfl⟩

/-- Helper: every reachable outbox state satisfies the buffer
invariant. -/
theorem reachable_inv (ob : Outbox) (h : Outbox.Reachable ob) : OutboxInv ob := by
  induction h with
  | new m => exact ⟨by simp [Outbox.new], by simp [Outbox.new]⟩
  | prep ob e hr ih =>
    obtain ⟨hb, hp⟩ := ih
    have hsub : List.Sublist (prepare_outbound ob e).1.buffer
        (ob.buffer ++ [(ob.next_seq, { e with seq := ob.next_seq, ack := ob.local_ack })]) :=
      evictFront_sublist _ _
    constructor
    · intro p hmem
      have hm2 : p ∈ ob.buffer
          ++ [(ob.next_seq, { e with seq := ob.next_seq, ack := ob.local_ack })] :=
        hsub.mem hmem
      rcases List.mem_append.1 hm2 with h1 | h1
      · exact Nat.lt_succ_of_lt (hb p h1)
      · rcases List.mem_singleton.1 h1 with rfl
        exact Nat.lt_succ_self _
    · refine List.Pairwise.sublist hsub ?_
      rw [List.pairwise_append]
      refine ⟨hp, List.pairwise_singleton _ _, ?_⟩
      intro p h1 q h2
      rcases List.mem_singleton.1 h2 with rfl
      exact hb p h1
  | recv ob s hr ih =>
    obtain ⟨hb, hp⟩ := ih
    obtain ⟨hbuf, hns⟩ := on_recv_buffer ob s
    constructor
    · intro p hmem
      rw [hns]
      exact hb p (by rwa [hbuf] at hmem)
    · rw [hbuf]
      exact hp
  | ack ob a hr ih =>
    obtain ⟨hb, hp⟩ := ih
    have hsub : List.Sublist (ob.on_peer_ack a).buffer ob.buffer :=
      List.dropWhile_sublist _
    exact ⟨fun p hmem => hb p (hsub.mem hmem), List.Pairwise.sublist hsub hp⟩

/-- Helper: in a strictly seq-sorted buffer, every entry surviving the
`on_peer_ack` front-pop loop has seq strictly above the watermark. -/
theorem dropWhile_all_gt (l : List (Nat × Envelope)) (a : Nat)
    (h : l.Pairwise (fun p q => p.1 < q.1)) :
    ∀ p ∈ l.dropWhile (fun p => decide (p.1 ≤ a)), a < p.1 := by
  induction l with
  | nil => simp
  | cons x xs ih =>
    rw [List.dropWhile_cons]
    by_cases hx : x.1 ≤ a
    · rw [if_pos (by simpa using hx)]
      exact ih h.of_cons
    · rw [if_neg (by simpa using hx)]
      intro p hp
      rcases List.mem_cons.1 hp with rfl | hp2
      · omega
      · have hlt : x.1 < p.1 := (List.pairwise_cons.1 h).1 p hp2
        omega

/-- Helper: the front-pop loop empties a buffer all of whose entries are
at or below the watermark. -/
theorem dropWhile_nil_of_all (l : List (Nat × Envelope)) (p : Nat × Envelope → Bool)
    (h : ∀ x ∈ l, p x = true) : l.dropWhile p = [] := by
  induction l with
  | nil => rfl
  | cons x xs ih =>
    rw [List.dropWhile_cons, if_pos (h x (List.mem_cons_self _ _))]
    exact ih fun y hy => h y (List.mem_cons_of_mem _ hy)

/-- Helper: unfolding one send through the outbox. -/
theorem stamp_store_cons (ob : Outbox) (e : Envelope) (es : List Envelope) :
    stamp_store_list ob (e :: es) = stamp_store_list (prepare_outbound ob e).1 es := rfl

/-- Helper: stamping-and-storing `es` advances `next_seq` by `es.length`
and leaves `peer_ack` unchanged. -/
theorem stamp_store_state (ob : Outbox) (es : List Envelope) :
    (stamp_store_list ob es).next_seq = ob.next_seq + es.length
  ∧ (stamp_store_list ob es).peer_ack = ob.peer_ack := by
  induction es generalizing ob with
  | nil => exact ⟨by simp [stamp_store_list], rfl⟩
  | cons e es ih =>
    rw [stamp_store_cons]
    obtain ⟨h1, h2⟩ := ih (prepare_outbound ob e).1
    refine ⟨?_, ?_⟩
    · rw [h1]
      show ob.next_seq + 1 + es.length = ob.next_seq + (e :: es).length
      simp [List.length_cons]
      omega
    · exact h2

/-- Helper: the send worker's loop preserves reachability. -/
theorem reachable_stamp_store (ob : Outbox) (es : List Envelope) (h : Outbox.Reachable ob) :
    Outbox.Reachable (stamp_store_list ob es) := by
  induction es generalizing ob with
  | nil => exact h
  | cons e es ih =>
    rw [stamp_store_cons]
    exact ih _ (Outbox.Reachable.prep ob e h)

/-- C5: stamping and storing n envelopes through a fresh outbox and then
processing `on_peer_ack(n)` leaves `pending_count()` at zero; and on any
reachable outbox state, `on_peer_ack` only raises the `peer_ack`
watermark (to at least the acked value and at least its old value — so
the new watermark dominates every value ever written), and immediately
after processing every entry still buffered has seq strictly greater
than the watermark. -/
theorem c5_outbox_roundtrip_and_watermark :
    (∀ (m : Nat) (es : List Envelope),
        ((stamp_store_list (Outbox.new m) es).on_peer_ack es.length).pending_count = 0)
  ∧ (∀ (ob : Outbox) (a : Nat), ob.Reachable →
        ob.peer_ack ≤ (ob.on_peer_ack a).peer_ack
      ∧ a ≤ (ob.on_peer_ack a).peer_ack
      ∧ ∀ p ∈ (ob.on_peer_ack a).buffer, (ob.on_peer_ack a).peer_ack < p.1) := by
  constructor
  · intro m es
    have hreach := reachable_stamp_store (Outbox.new m) es (Outbox.Reachable.new m)
    obtain ⟨hb, _⟩ := reachable_inv _ hreach
    obtain ⟨hns, hpa⟩ := stamp_store_state (Outbox.new m) es
    rw [Outbox.pending_count, Outbox.on_peer_ack]
    have hall : ∀ p ∈ (stamp_store_list (Outbox.new m) es).buffer,
        (fun p : Nat × Envelope => decide (p.1 ≤
          (if (stamp_store_list (Outbox.new m) es).peer_ack < es.length then es.length
           else (stamp_store_list (Outbox.new m) es).peer_ack))) p = true := by
      intro p hp
      have h1 : p.1 < (stamp_store_list (Outbox.new m) es).next_seq := hb p hp
      rw [hns] at h1
      have h2 : (Outbox.new m).next_seq = 1 := rfl
      have h3 : (Outbox.new m).peer_ack = 0 := rfl
      rw [hpa, h3]
      simp only [decide_eq_true_eq]
      split <;> omega
    rw [dropWhile_nil_of_all _ _ hall]
    rfl
  · intro ob a hreach
    obtain ⟨_, hp⟩ := reachable_inv _ hreach
    refine ⟨?_, ?_, ?_⟩
    · simp only [Outbox.on_peer_ack]
      split <;> omega
    · simp only [Outbox.on_peer_ack]
      split <;> omega
    · exact dropWhile_all_gt _ _ hp

/-- Witness for C5: the watermark clause applied at the fresh outbox of
capacity 10 and ack 7. -/
theorem c5_outbox_roundtrip_and_watermark_witness :
    (Outbox.new 10).peer_ack ≤ ((Outbox.new 10).on_peer_ack 7).peer_ack
  ∧ 7 ≤ ((Outbox.new 10).on_peer_ack 7).peer_ack
  ∧ ∀ p ∈ ((Outbox.new 10).on_peer_ack 7).buffer,
      ((Outbox.new 10).on_peer_ack 7).peer_ack < p.1 :=
  c5_outbox_roundtrip_and_watermark.2 (Outbox.new 10) 7 (Outbox.Reachable.new 10)

end AHand
